import Mathlib

/-!
Verification of the client-side interactivity script of the gakuen
repository (src/script.js): slider activation, autoplay ticks, touch
swipes, accordion single-open behaviour, debounce, and contact-form
validation. Each JavaScript fragment is embedded as an executable Lean
definition; theorems settle the documented properties against these
definitions.
-/

namespace Gakuen

/-! ## Character classes of the validation regexes

The form validator uses two regular expressions over JavaScript strings:
a telephone check against the pattern anchored-one-or-more of the class
holding digits, the hyphen and whitespace, and an email shape check.
JavaScript digit class is 0-9; its whitespace class is the fixed set of
code points below (the non-unicode-mode semantics of backslash-s).
-/

def jsDigit (c : Char) : Bool :=
  decide ('0' ≤ c) && decide (c ≤ '9')

def jsWhitespace (c : Char) : Bool :=
  c = '\t' || c = '\n' || c = '\u000B' || c = '\u000C' || c = '\r' ||
  c = ' ' || c = '\u00A0' || c = '\u1680' ||
  (decide ('\u2000' ≤ c) && decide (c ≤ '\u200A')) ||
  c = '\u2028' || c = '\u2029' || c = '\u202F' || c = '\u205F' ||
  c = '\u3000' || c = '\uFEFF'

/-- One character of the telephone class: digit, hyphen or whitespace. -/
def telClassChar (c : Char) : Bool :=
  jsDigit c || c = '-' || jsWhitespace c

/-- Full match of the telephone regex (anchored, one or more telephone
class characters), as tested in src/script.js line 178. -/
def telMatch (v : List Char) : Bool :=
  !v.isEmpty && v.all telClassChar

/-- A character allowed in every segment of the email regex: anything
except whitespace and the at sign. -/
def emailAtomChar (c : Char) : Bool :=
  !jsWhitespace c && !(c = '@')

/-- Full match of the email regex of src/script.js line 184 (anchored
segment, at sign, segment, dot, segment, with every segment a nonempty
run of non-whitespace non-at characters). The string matches exactly
when one position i holds the at sign with at least one character
before it, every other character is an atom character, and some dot
stands at a position j with at least one character strictly between i
and j and at least one character after j. -/
def emailMatch (v : List Char) : Bool :=
  (List.range v.length).any fun i =>
    v.getD i ' ' = '@' && decide (1 ≤ i) &&
    ((List.range v.length).any fun j =>
      v.getD j ' ' = '.' && decide (i + 2 ≤ j) && decide (j + 2 ≤ v.length)) &&
    ((List.range v.length).all fun k => k = i || emailAtomChar (v.getD k ' '))

/-! ## Contact-form submit handler

The handler of src/script.js lines 173-194, as a function from the two
optional field values and the result of the confirmation prompt to the
observable outcome. The constructors telError and emailError stand for
the blocked submission together with the alert message and the focus
move of the corresponding branch; declined for the user refusing the
confirmation prompt; submitted for the native submission proceeding.
A field value of none models an absent input element; a JavaScript
string is truthy exactly when it is nonempty.
-/

inductive SubmitResult where
  | telError
  | emailError
  | declined
  | submitted
deriving DecidableEq

def telFieldFails : Option (List Char) → Bool
  | none => false
  | some v => !v.isEmpty && !telMatch v

def emailFieldFails : Option (List Char) → Bool
  | none => false
  | some v => !v.isEmpty && !emailMatch v

def contactSubmit (tel email : Option (List Char)) (confirmOk : Bool) :
    SubmitResult :=
  if telFieldFails tel then .telError
  else if emailFieldFails email then .emailError
  else if confirmOk then .submitted else .declined

end Gakuen

namespace Gakuen

/-- C5: on submit, a present, nonempty telephone value holding any
character outside digits, hyphens and whitespace blocks submission with
the telephone error (alert surfaced, focus moved); moreover the
telephone rule rejects abc-123 and accepts 090-1234-5678. -/
theorem contact_tel_rule :
    (∀ (v : List Char) (email : Option (List Char)) (ok : Bool) (c : Char),
      c ∈ v → telClassChar c = false →
      contactSubmit (some v) email ok = SubmitResult.telError) ∧
    telMatch "abc-123".data = false ∧
    telMatch "090-1234-5678".data = true := by
  refine ⟨?_, by decide, by decide⟩
  intro v email ok c hc hbad
  have hne : v ≠ [] := List.ne_nil_of_mem hc
  have hall : v.all telClassChar = false := by
    rcases Bool.eq_false_or_eq_true (v.all telClassChar) with h | h
    · exact absurd (List.all_eq_true.mp h c hc) (by simp [hbad])
    · exact h
  have hfail : telFieldFails (some v) = true := by
    simp [telFieldFails, telMatch, hall, hne]
  simp [contactSubmit, hfail]

theorem contact_tel_rule_witness :
    contactSubmit (some "abc-123".data) (some "user@example.com".data) true =
      SubmitResult.telError :=
  contact_tel_rule.1 "abc-123".data (some "user@example.com".data) true 'a'
    (by decide) (by decide)

/-- C6: on submit, when the telephone rule does not fire, a present,
nonempty email value failing the local-at-domain-dot-tld pattern blocks
submission with the email error; moreover the email rule rejects
not-an-email and accepts user@example.com. -/
theorem contact_email_rule :
    (∀ (tel : Option (List Char)) (v : List Char) (ok : Bool),
      telFieldFails tel = false → v ≠ [] → emailMatch v = false →
      contactSubmit tel (some v) ok = SubmitResult.emailError) ∧
    emailMatch "not-an-email".data = false ∧
    emailMatch "user@example.com".data = true := by
  refine ⟨?_, by decide, by decide⟩
  intro tel v ok htel hne hbad
  have hfail : emailFieldFails (some v) = true := by
    simp [emailFieldFails, hbad, hne]
  simp [contactSubmit, htel, hfail]

theorem contact_email_rule_witness :
    contactSubmit (some "090-1234-5678".data) (some "not-an-email".data) true =
      SubmitResult.emailError :=
  contact_email_rule.1 (some "090-1234-5678".data) "not-an-email".data true
    (by decide) (by decide) (by decide)

end Gakuen

namespace Gakuen

/-! ## Slider

The slider of src/script.js lines 48-128. A slide element carries the
active class and an aria-hidden attribute; a dot carries the active
class; the closure state holds the slide list, the dot list, the
current index and the paused flag. Indices are integers, as JavaScript
numbers reaching setActive are: the percent operator of next and prev
is the JavaScript remainder, truncated toward zero, embedded as
Int.tmod.
-/

structure Slide where
  active : Bool
  ariaHidden : String
deriving DecidableEq

structure Dot where
  active : Bool
deriving DecidableEq

structure SliderState where
  slides : List Slide
  dots : List Dot
  current : Int
  isPaused : Bool
deriving DecidableEq

/-- Body of the forEach of setActive, lines 60-68: the slide at
position i gains the active class and aria-hidden false exactly when i
equals the requested index, and otherwise loses the class with
aria-hidden true. -/
def markSlide (index : Int) (i : Nat) (s : Slide) : Slide :=
  if (i : Int) = index then { s with active := true, ariaHidden := "false" }
  else { s with active := false, ariaHidden := "true" }

def markSlides (index : Int) (i : Nat) : List Slide → List Slide
  | [] => []
  | s :: rest => markSlide index i s :: markSlides index (i + 1) rest

/-- Body of the dots forEach of line 69: classList.toggle with the
condition i equals index. -/
def markDots (index : Int) (i : Nat) : List Dot → List Dot
  | [] => []
  | d :: rest =>
      { d with active := decide ((i : Int) = index) } :: markDots index (i + 1) rest

/-- setActive of lines 59-71. -/
def setActive (st : SliderState) (index : Int) : SliderState :=
  { st with
    slides := markSlides index 0 st.slides,
    dots := markDots index 0 st.dots,
    current := index }

/-- next of line 73: setActive((current + 1) % slides.length). -/
def next (st : SliderState) : SliderState :=
  setActive st ((st.current + 1).tmod (st.slides.length : Int))

/-- prev of line 74: setActive((current - 1 + slides.length) % slides.length). -/
def prev (st : SliderState) : SliderState :=
  setActive st ((st.current - 1 + (st.slides.length : Int)).tmod (st.slides.length : Int))

/-- One firing of the interval callback of line 79: if not paused, next. -/
def autoTick (st : SliderState) : SliderState :=
  if st.isPaused then st else next st

/-- The touchend handler of lines 110-117: dx is the horizontal
displacement, dt the elapsed milliseconds; a swipe needs magnitude
above 40 and duration under 1000, negative dx going forward; the
paused flag clears in every case. -/
def touchEnd (st : SliderState) (dx : Int) (dt : Nat) : SliderState :=
  let st2 :=
    if 40 < dx.natAbs ∧ dt < 1000 then
      (if dx < 0 then next st else prev st)
    else st
  { st2 with isPaused := false }

/-- findIndex of line 55: index of the first slide carrying the active
class, or -1 when none does. -/
def findIndexActive (slides : List Slide) : Int :=
  match slides.findIdx? (fun s => s.active) with
  | some n => (n : Int)
  | none => -1

/-- JavaScript logical-or against the literal 0 on a number: 0 is
falsy, every other integer is truthy. -/
def jsOrZero (v : Int) : Int :=
  if v = 0 then 0 else v

/-- The initial current index of line 55. -/
def initCurrent (slides : List Slide) : Int :=
  jsOrZero (findIndexActive slides)

/-- The slider initialisation as far as the active marking goes: the
closure state of lines 55-57 followed by the setActive(current) call of
line 127. -/
def initSlider (slides : List Slide) (dots : List Dot) : SliderState :=
  setActive
    { slides := slides, dots := dots,
      current := initCurrent slides, isPaused := false }
    (initCurrent slides)

/-! ### Helper lemmas on the marking passes -/

theorem length_markSlides (index : Int) :
    ∀ (i : Nat) (l : List Slide), (markSlides index i l).length = l.length := by
  intro i l
  induction l generalizing i with
  | nil => rfl
  | cons s rest ih => simp [markSlides, ih]

theorem length_markDots (index : Int) :
    ∀ (i : Nat) (l : List Dot), (markDots index i l).length = l.length := by
  intro i l
  induction l generalizing i with
  | nil => rfl
  | cons d rest ih => simp [markDots, ih]

theorem getD_markSlides (index : Int) (d : Slide) :
    ∀ (i j : Nat) (l : List Slide), j < l.length →
      (markSlides index i l).getD j d = markSlide index (i + j) (l.getD j d) := by
  intro i j l
  induction l generalizing i j with
  | nil => intro h; exact absurd h (by simp)
  | cons s rest ih =>
    intro h
    cases j with
    | zero => simp [markSlides]
    | succ j2 =>
      have h2 : j2 < rest.length := by simpa using h
      simp only [markSlides, List.getD_cons_succ]
      rw [ih (i + 1) j2 h2, Nat.add_assoc, Nat.add_comm 1 j2]

theorem getD_markDots (index : Int) (d : Dot) :
    ∀ (i j : Nat) (l : List Dot), j < l.length →
      (markDots index i l).getD j d =
        { active := decide (((i + j : Nat) : Int) = index) } := by
  intro i j l
  induction l generalizing i j with
  | nil => intro h; exact absurd h (by simp)
  | cons x rest ih =>
    intro h
    cases j with
    | zero => simp [markDots]
    | succ j2 =>
      have h2 : j2 < rest.length := by simpa using h
      simp only [markDots, List.getD_cons_succ]
      rw [ih (i + 1) j2 h2, Nat.add_assoc, Nat.add_comm 1 j2]

theorem countP_markSlides (index : Int) :
    ∀ (i : Nat) (l : List Slide),
      (markSlides index i l).countP (fun s => s.active) =
        if (i : Int) ≤ index ∧ index < (i : Int) + l.length then 1 else 0 := by
  intro i l
  induction l generalizing i with
  | nil =>
    simp only [markSlides, List.countP_nil, List.length_nil]
    rw [if_neg]
    omega
  | cons s rest ih =>
    simp only [markSlides, List.countP_cons, ih (i + 1), List.length_cons]
    by_cases h : (i : Int) = index
    · have hms : (markSlide index i s).active = true := by simp [markSlide, h]
      rw [if_pos hms]
      split_ifs <;> omega
    · have hms : ¬((markSlide index i s).active = true) := by simp [markSlide, h]
      rw [if_neg hms]
      split_ifs <;> omega

theorem countP_markDots (index : Int) :
    ∀ (i : Nat) (l : List Dot),
      (markDots index i l).countP (fun d => d.active) =
        if (i : Int) ≤ index ∧ index < (i : Int) + l.length then 1 else 0 := by
  intro i l
  induction l generalizing i with
  | nil =>
    simp only [markDots, List.countP_nil, List.length_nil]
    rw [if_neg]
    omega
  | cons x rest ih =>
    simp only [markDots, List.countP_cons, ih (i + 1), List.length_cons]
    by_cases h : (i : Int) = index
    · have hmd : ({ x with active := decide ((i : Int) = index) } : Dot).active = true := by
        simp [h]
      rw [if_pos hmd]
      split_ifs <;> omega
    · have hmd : ¬(({ x with active := decide ((i : Int) = index) } : Dot).active = true) := by
        simp [h]
      rw [if_neg hmd]
      split_ifs <;> omega

/-- The JavaScript remainder agrees with the euclidean remainder on a
nonnegative dividend and a natural divisor. -/
theorem tmod_eq_emod_of_nonneg (a : Int) (n : Nat) (ha : 0 ≤ a) :
    a.tmod (n : Int) = a % (n : Int) := by
  obtain ⟨m, rfl⟩ := Int.eq_ofNat_of_zero_le ha
  rw [← Int.ofNat_tmod, Int.ofNat_emod]

end Gakuen

namespace Gakuen

theorem setActive_slides (st : SliderState) (index : Int) :
    (setActive st index).slides = markSlides index 0 st.slides := rfl

theorem setActive_dots (st : SliderState) (index : Int) :
    (setActive st index).dots = markDots index 0 st.dots := rfl

theorem setActive_current (st : SliderState) (index : Int) :
    (setActive st index).current = index := rfl

theorem next_def (st : SliderState) :
    next st = setActive st ((st.current + 1).tmod (st.slides.length : Int)) := rfl

/-- C1: for a valid index i, setActive(i) leaves exactly one slide
carrying the active class, exactly one dot carrying the active class,
both at position i, aria-hidden false exactly at i and true elsewhere,
and the current index equal to i. The dot list has the length of the
slide list, as the one-to-one dot markup provides. -/
theorem setActive_exactly_one (st : SliderState) (i : Int)
    (h0 : 0 ≤ i) (h1 : i < (st.slides.length : Int))
    (hd : st.dots.length = st.slides.length) :
    (setActive st i).current = i ∧
    (setActive st i).slides.countP (fun s => s.active) = 1 ∧
    (setActive st i).dots.countP (fun d => d.active) = 1 ∧
    (∀ j, j < st.slides.length →
      ((setActive st i).slides.getD j ⟨false, ""⟩).active = decide ((j : Int) = i) ∧
      ((setActive st i).slides.getD j ⟨false, ""⟩).ariaHidden =
        (if (j : Int) = i then "false" else "true")) ∧
    (∀ j, j < st.dots.length →
      ((setActive st i).dots.getD j ⟨false⟩).active = decide ((j : Int) = i)) := by
  refine ⟨rfl, ?_, ?_, ?_, ?_⟩
  · rw [setActive_slides, countP_markSlides]
    split_ifs with hc
    · rfl
    · omega
  · rw [setActive_dots, countP_markDots]
    split_ifs with hc
    · rfl
    · omega
  · intro j hj
    rw [setActive_slides, getD_markSlides i ⟨false, ""⟩ 0 j st.slides hj]
    by_cases hji : (j : Int) = i
    · constructor <;> simp [markSlide, hji]
    · constructor <;> simp [markSlide, hji]
  · intro j hj
    rw [setActive_dots, getD_markDots i ⟨false⟩ 0 j st.dots hj]
    simp

def stW : SliderState :=
  { slides := [{ active := true, ariaHidden := "false" },
               { active := false, ariaHidden := "true" }],
    dots := [{ active := true }, { active := false }],
    current := 0, isPaused := false }

theorem setActive_exactly_one_witness :
    (setActive stW 1).current = 1 ∧
    (setActive stW 1).slides.countP (fun s => s.active) = 1 ∧
    (setActive stW 1).dots.countP (fun d => d.active) = 1 := by
  have h := setActive_exactly_one stW 1 (by decide) (by decide) (by decide)
  exact ⟨h.1, h.2.1, h.2.2.1⟩

/-- C7: a tick of the autoplay interval leaves the state unchanged
while the paused flag is set; with the flag clear, a tick advances the
current index by one position modulo the slide count (states satisfying
the index invariant of the data model, on a nonempty slide list). -/
theorem autoplay_tick (st : SliderState) :
    (st.isPaused = true → autoTick st = st) ∧
    (st.isPaused = false → 0 < st.slides.length → 0 ≤ st.current →
      (autoTick st).current = (st.current + 1) % (st.slides.length : Int)) := by
  constructor
  · intro h
    simp [autoTick, h]
  · intro h hlen hcur
    have hone : autoTick st = next st := by simp [autoTick, h]
    rw [hone, next_def, setActive_current,
      tmod_eq_emod_of_nonneg (st.current + 1) st.slides.length (by omega)]

def stP : SliderState :=
  { slides := [{ active := true, ariaHidden := "false" },
               { active := false, ariaHidden := "true" }],
    dots := [{ active := true }, { active := false }],
    current := 0, isPaused := true }

def stR : SliderState :=
  { slides := [{ active := true, ariaHidden := "false" },
               { active := false, ariaHidden := "true" }],
    dots := [{ active := true }, { active := false }],
    current := 0, isPaused := false }

theorem autoplay_tick_witness :
    autoTick stP = stP ∧ (autoTick stR).current = 1 := by
  constructor
  · exact (autoplay_tick stP).1 rfl
  · have h := (autoplay_tick stR).2 rfl (by decide) (by decide)
    rw [h]
    decide

/-- C8: at touch end with horizontal displacement dx and elapsed time
dt, a magnitude above 40 finished under 1000 performs exactly one
navigation, next on negative dx and prev on positive dx; otherwise no
navigation happens; the paused flag is cleared in every case. -/
theorem touch_swipe (st : SliderState) (dx : Int) (dt : Nat) :
    (touchEnd st dx dt).isPaused = false ∧
    (40 < dx.natAbs → dt < 1000 → dx < 0 →
      touchEnd st dx dt = { next st with isPaused := false }) ∧
    (40 < dx.natAbs → dt < 1000 → 0 < dx →
      touchEnd st dx dt = { prev st with isPaused := false }) ∧
    (dx.natAbs ≤ 40 ∨ 1000 ≤ dt →
      touchEnd st dx dt = { st with isPaused := false }) := by
  refine ⟨rfl, ?_, ?_, ?_⟩
  · intro h1 h2 h3
    have hc : 40 < dx.natAbs ∧ dt < 1000 := ⟨h1, h2⟩
    simp only [touchEnd]
    rw [if_pos hc, if_pos h3]
  · intro h1 h2 h3
    have hc : 40 < dx.natAbs ∧ dt < 1000 := ⟨h1, h2⟩
    have hneg : ¬ dx < 0 := by omega
    simp only [touchEnd]
    rw [if_pos hc, if_neg hneg]
  · intro h
    have hc : ¬(40 < dx.natAbs ∧ dt < 1000) := by omega
    simp only [touchEnd]
    rw [if_neg hc]

def stT : SliderState :=
  { slides := [{ active := true, ariaHidden := "false" },
               { active := false, ariaHidden := "true" },
               { active := false, ariaHidden := "true" }],
    dots := [{ active := true }, { active := false }, { active := false }],
    current := 0, isPaused := true }

theorem touch_swipe_witness :
    touchEnd stT (-50) 300 = { next stT with isPaused := false } ∧
    touchEnd stT 20 100 = { stT with isPaused := false } := by
  constructor
  · exact (touch_swipe stT (-50) 300).2.1 (by decide) (by decide) (by decide)
  · exact (touch_swipe stT 20 100).2.2.2 (Or.inl (by decide))

end Gakuen

namespace Gakuen

/-- C10 (amended): setActive is total over all integer indices. For i
outside the valid range it marks every slide inactive with aria-hidden
true, marks every dot inactive, and sets the current index to i. A
subsequent next() activates index (i + 1) mod panel count whenever
-1 ≤ i; for i below -1 the JavaScript remainder can be negative, in
which case no panel becomes active (see the counterexample). Dot count
equals slide count as the one-to-one dot markup provides. -/
theorem setActive_out_of_range (st : SliderState) (i : Int)
    (hd : st.dots.length = st.slides.length)
    (hout : i < 0 ∨ (st.slides.length : Int) ≤ i) :
    (setActive st i).current = i ∧
    (setActive st i).slides.countP (fun s => s.active) = 0 ∧
    (∀ j, j < st.slides.length →
      ((setActive st i).slides.getD j ⟨false, ""⟩).active = false ∧
      ((setActive st i).slides.getD j ⟨false, ""⟩).ariaHidden = "true") ∧
    (setActive st i).dots.countP (fun d => d.active) = 0 ∧
    (0 < st.slides.length → -1 ≤ i →
      (next (setActive st i)).current = (i + 1) % (st.slides.length : Int) ∧
      ∀ j, j < st.slides.length →
        ((next (setActive st i)).slides.getD j ⟨false, ""⟩).active =
          decide ((j : Int) = (i + 1) % (st.slides.length : Int))) := by
  have hL : (setActive st i).slides.length = st.slides.length := by
    rw [setActive_slides]
    exact length_markSlides i 0 st.slides
  refine ⟨rfl, ?_, ?_, ?_, ?_⟩
  · rw [setActive_slides, countP_markSlides]
    split_ifs with hc
    · omega
    · rfl
  · intro j hj
    rw [setActive_slides, getD_markSlides i ⟨false, ""⟩ 0 j st.slides hj]
    have hne : ¬(((j : Nat) : Int) = i) := by omega
    constructor <;> simp [markSlide, hne]
  · rw [setActive_dots, countP_markDots]
    split_ifs with hc
    · omega
    · rfl
  · intro hlen hge
    have hm : ((setActive st i).current + 1).tmod ((setActive st i).slides.length : Int) =
        (i + 1) % (st.slides.length : Int) := by
      rw [setActive_current, hL]
      exact tmod_eq_emod_of_nonneg (i + 1) st.slides.length (by omega)
    have hnx : next (setActive st i) =
        setActive (setActive st i) ((i + 1) % (st.slides.length : Int)) := by
      rw [next_def, hm]
    constructor
    · rw [hnx, setActive_current]
    · intro j hj
      rw [hnx, setActive_slides,
        getD_markSlides ((i + 1) % (st.slides.length : Int)) ⟨false, ""⟩ 0 j
          (setActive st i).slides (by omega)]
      by_cases hjm : (j : Int) = (i + 1) % (st.slides.length : Int)
      · simp [markSlide, hjm]
      · simp [markSlide, hjm]

def stC10 : SliderState :=
  { slides := [{ active := true, ariaHidden := "false" },
               { active := false, ariaHidden := "true" },
               { active := false, ariaHidden := "true" }],
    dots := [{ active := true }, { active := false }, { active := false }],
    current := 0, isPaused := false }

/-- C10, counterexample to the claim as frozen: on a three-slide
slider, after setActive(-2) a next() call computes the JavaScript
remainder (-2 + 1) % 3 = -1, so the current index becomes -1 and no
panel at index (i + 1) mod count = 2 is activated; indeed no panel is
active at all. -/
theorem setActive_neg2_counterexample :
    (next (setActive stC10 (-2))).current = -1 ∧
    ¬((next (setActive stC10 (-2))).current = ((-2 : Int) + 1) % 3) ∧
    (next (setActive stC10 (-2))).slides.countP (fun s => s.active) = 0 := by
  decide

theorem setActive_out_of_range_witness :
    (setActive stC10 5).current = 5 ∧
    (setActive stC10 5).slides.countP (fun s => s.active) = 0 ∧
    (next (setActive stC10 (-1))).current = 0 := by
  have h5 := setActive_out_of_range stC10 5 (by decide) (Or.inr (by decide))
  have h1 := setActive_out_of_range stC10 (-1) (by decide) (Or.inl (by decide))
  refine ⟨h5.1, h5.2.1, ?_⟩
  have := (h1.2.2.2.2 (by decide) (by decide)).1
  rw [this]
  decide

/-- The initial current of line 55 together with the initial
setActive(current) call of line 127 on a slide list with no active
panel: findIndex returns -1, which is truthy, so the or-zero fallback
does not fire. -/
theorem init_current_findIdx (slides : List Slide) (dots : List Dot) :
    (∀ k : Nat, slides.findIdx? (fun s => s.active) = some k →
      initCurrent slides = (k : Int)) ∧
    (slides.findIdx? (fun s => s.active) = none →
      initCurrent slides = -1 ∧
      (initSlider slides dots).current = -1 ∧
      (initSlider slides dots).slides.countP (fun s => s.active) = 0) := by
  constructor
  · intro k hk
    rw [initCurrent, findIndexActive, hk]
    by_cases h0 : ((k : Nat) : Int) = 0
    · simp [jsOrZero, h0]
    · simp [jsOrZero, h0]
  · intro hk
    have hcur : initCurrent slides = -1 := by
      rw [initCurrent, findIndexActive, hk]
      rfl
    refine ⟨hcur, ?_, ?_⟩
    · rw [initSlider, setActive_current, hcur]
    · rw [initSlider, setActive_slides, countP_markSlides, hcur]
      rw [if_neg]
      omega

def inactiveSlides3 : List Slide :=
  [{ active := false, ariaHidden := "" },
   { active := false, ariaHidden := "" },
   { active := false, ariaHidden := "" }]

def dots3 : List Dot := [{ active := false }, { active := false }, { active := false }]

def activeAt2 : List Slide :=
  [{ active := false, ariaHidden := "" },
   { active := false, ariaHidden := "" },
   { active := true, ariaHidden := "" }]

/-- C3, counterexample to the claim as frozen: on three slides none of
which carries the active marker, the initial current index is -1, not
0, and initialization does not end with the panel at index 0 active. -/
theorem init_default_counterexample :
    ¬(initCurrent inactiveSlides3 = 0) ∧
    ¬(((initSlider inactiveSlides3 dots3).slides.getD 0 ⟨false, ""⟩).active = true) := by
  decide

theorem init_current_findIdx_witness :
    initCurrent activeAt2 = 2 ∧
    initCurrent inactiveSlides3 = -1 ∧
    (initSlider inactiveSlides3 dots3).slides.countP (fun s => s.active) = 0 := by
  have ha := (init_current_findIdx activeAt2 dots3).1 2 (by decide)
  have hb := (init_current_findIdx inactiveSlides3 dots3).2 (by decide)
  exact ⟨ha, hb.1, hb.2.2⟩

end Gakuen

namespace Gakuen

/-! ## Accordion

The accessible accordion of src/script.js lines 130-168. An item pairs
a trigger button, whose aria-expanded attribute is the expanded flag,
with a panel, whose hidden property is the hidden flag. The click
handler of lines 144-158 reads the expanded state of the clicked
trigger, closes every item of the group, and reopens the clicked item
only when it was not expanded (the scrollIntoView call changes no
open state and is not modelled).
-/

structure AccItem where
  expanded : Bool
  hidden : Bool
deriving DecidableEq

/-- Body of the close-all forEach of lines 147-152. -/
def closeItem (it : AccItem) : AccItem :=
  { it with expanded := false, hidden := true }

/-- An item counts as open when its trigger is expanded and its panel
is not hidden. -/
def accItemOpen (it : AccItem) : Bool :=
  it.expanded && !it.hidden

def accOpenCount (items : List AccItem) : Nat :=
  items.countP accItemOpen

/-- The click handler of lines 144-158 on the item at position idx. -/
def accClick (items : List AccItem) (idx : Nat) : List AccItem :=
  let expanded := (items.getD idx { expanded := false, hidden := true }).expanded
  let closed := items.map closeItem
  if expanded then closed
  else closed.set idx { expanded := true, hidden := false }

/-- Modelled from the spec: the accordion markup of index.html, which
is not under src/, ships every panel initially hidden, every item
closed. The script itself only resets aria-expanded at initialization
(line 142); the initial hidden state of the panels comes from the
markup. -/
def htmlPanelHidden : Bool := true

/-- The accordion items as the markup provides them, one per entry of
es for an arbitrary initial aria-expanded attribute, each panel hidden
per the markup model. -/
def htmlAccItems (es : List Bool) : List AccItem :=
  es.map fun e => { expanded := e, hidden := htmlPanelHidden }

/-- The ARIA initialization of lines 138-142: every trigger gets
aria-expanded false (the generated panel identifiers and the
aria-controls cross-references carry no open state and are not
modelled). -/
def accInit (items : List AccItem) : List AccItem :=
  items.map fun it => { it with expanded := false }

theorem countP_closeAll (items : List AccItem) :
    (items.map closeItem).countP accItemOpen = 0 := by
  rw [List.countP_map]
  have h : ∀ x ∈ items, ¬((accItemOpen ∘ closeItem) x = true) := by
    intro x _
    simp [accItemOpen, closeItem]
  exact List.countP_eq_zero.mpr h

theorem accClick_of_expanded (items : List AccItem) (idx : Nat)
    (hexp : (items.getD idx { expanded := false, hidden := true }).expanded = true) :
    accClick items idx = items.map closeItem := by
  simp only [accClick]
  rw [hexp]
  rw [if_pos rfl]

theorem accClick_of_not_expanded (items : List AccItem) (idx : Nat)
    (hexp : (items.getD idx { expanded := false, hidden := true }).expanded = false) :
    accClick items idx =
      (items.map closeItem).set idx { expanded := true, hidden := false } := by
  simp only [accClick]
  rw [hexp]
  rw [if_neg Bool.false_ne_true]

/-- C2: activating the trigger at a valid position idx first closes
every item of the group, then reopens item idx exactly when its
trigger was not expanded; the number of open items afterwards is 0 or
1, never more, and activating an open item leaves the whole group
closed. -/
theorem accordion_single_open (items : List AccItem) (idx : Nat)
    (h : idx < items.length) :
    accOpenCount (accClick items idx) ≤ 1 ∧
    (accItemOpen (items.getD idx { expanded := false, hidden := true }) = true →
      accClick items idx = items.map closeItem) ∧
    ((items.getD idx { expanded := false, hidden := true }).expanded = false →
      accClick items idx =
        (items.map closeItem).set idx { expanded := true, hidden := false }) := by
  refine ⟨?_, ?_, ?_⟩
  · rcases Bool.eq_false_or_eq_true
      (items.getD idx { expanded := false, hidden := true }).expanded with hexp | hexp
    · rw [accOpenCount, accClick_of_expanded items idx hexp, countP_closeAll]
      omega
    · have hset := accClick_of_not_expanded items idx hexp
      have hlt : idx < (items.map closeItem).length := by
        rw [List.length_map]
        exact h
      rw [accOpenCount, hset, List.countP_set accItemOpen (items.map closeItem) idx _ hlt]
      have hz := countP_closeAll items
      have hop : accItemOpen { expanded := true, hidden := false } = true := by
        simp [accItemOpen]
      rw [hz, hop]
      split_ifs <;> omega
  · intro hopen
    have hexp : (items.getD idx { expanded := false, hidden := true }).expanded = true := by
      rcases Bool.eq_false_or_eq_true
        (items.getD idx { expanded := false, hidden := true }).expanded with he | he
      · exact he
      · rw [accItemOpen, he] at hopen
        simp at hopen
    exact accClick_of_expanded items idx hexp
  · intro hexp
    exact accClick_of_not_expanded items idx hexp

def accW : List AccItem :=
  [{ expanded := false, hidden := true }, { expanded := true, hidden := false }]

theorem accordion_single_open_witness :
    accOpenCount (accClick accW 0) ≤ 1 ∧
    accClick accW 1 = accW.map closeItem ∧
    accClick accW 0 = (accW.map closeItem).set 0 { expanded := true, hidden := false } := by
  refine ⟨(accordion_single_open accW 0 (by decide)).1,
    (accordion_single_open accW 1 (by decide)).2.1 (by decide),
    (accordion_single_open accW 0 (by decide)).2.2 (by decide)⟩

/-- C9: after the accordion initialization every item of every group is
closed: its trigger carries aria-expanded false and its panel is
hidden, the markup shipping every panel hidden and the script resetting
every expanded flag. -/
theorem accordion_init_closed (es : List Bool) (it : AccItem)
    (hmem : it ∈ accInit (htmlAccItems es)) :
    it.expanded = false ∧ it.hidden = true ∧ accItemOpen it = false := by
  rw [accInit, htmlAccItems, List.map_map] at hmem
  obtain ⟨e, _, rfl⟩ := List.mem_map.mp hmem
  refine ⟨rfl, rfl, ?_⟩
  simp [accItemOpen]

theorem accordion_init_closed_witness :
    ({ expanded := false, hidden := true } : AccItem).expanded = false ∧
    ({ expanded := false, hidden := true } : AccItem).hidden = true ∧
    accItemOpen { expanded := false, hidden := true } = false :=
  accordion_init_closed [true, false] { expanded := false, hidden := true }
    (by decide)

end Gakuen

namespace Gakuen

/-! ## Debounce

The debounce of src/script.js lines 15-21. A call at time t cancels
the pending timeout, if any, and schedules the wrapped callback with
the current arguments at time t plus wait. Over a time-ordered list of
calls, the timeout armed by a call fires exactly when no further call
arrives strictly before its deadline; the deliveries, each a firing
time paired with the argument value (which stands for the argument
list together with the this binding), come out in time order. -/

def debounceDelivered {α : Type} (wait : Nat) : List (Nat × α) → List (Nat × α)
  | [] => []
  | [p] => [(p.1 + wait, p.2)]
  | p :: q :: rest =>
      (if p.1 + wait ≤ q.1 then [(p.1 + wait, p.2)] else []) ++
        debounceDelivered wait (q :: rest)

/-- C4: when every call of a nonempty, time-ordered call sequence
follows its predecessor by strictly less than wait, exactly one
delivery happens: the final arguments, at the final call time plus
wait — so no earlier arguments are ever delivered and the delivery
lies at least wait after the final call. -/
theorem debounce_single_delivery {α : Type} (wait : Nat)
    (calls : List (Nat × α)) (hne : calls ≠ [])
    (hgap : calls.Chain' (fun p q => p.1 ≤ q.1 ∧ q.1 < p.1 + wait)) :
    debounceDelivered wait calls =
      [((calls.getLast hne).1 + wait, (calls.getLast hne).2)] := by
  induction calls with
  | nil => exact absurd rfl hne
  | cons p rest ih =>
    cases rest with
    | nil => rfl
    | cons q rest2 =>
      have hpq := (List.chain'_cons.mp hgap).1
      have hrest := (List.chain'_cons.mp hgap).2
      have hne2 : q :: rest2 ≠ [] := List.cons_ne_nil q rest2
      have hstep : debounceDelivered wait (p :: q :: rest2) =
          debounceDelivered wait (q :: rest2) := by
        rw [debounceDelivered, if_neg (by omega)]
        rfl
      rw [hstep, ih hne2 hrest, List.getLast_cons hne2]

def callsW : List (Nat × Nat) := [(0, 1), (3, 2), (5, 3), (8, 4), (11, 5)]

theorem debounce_single_delivery_witness :
    debounceDelivered 10 callsW = [(21, 5)] := by
  have h := debounce_single_delivery 10 callsW (by decide)
    (by
      rw [callsW]
      refine List.chain'_cons.mpr ⟨by omega, ?_⟩
      refine List.chain'_cons.mpr ⟨by omega, ?_⟩
      refine List.chain'_cons.mpr ⟨by omega, ?_⟩
      refine List.chain'_cons.mpr ⟨by omega, ?_⟩
      exact List.chain'_singleton _)
  rw [h]
  decide

end Gakuen
